import Mathlib

/- Shallow embedding of the game-engine core of this repository.

   The authoritative source is src/unnamed/part_001 (the latest revision of
   the evolving game file; src/src/game.ts and src/unnamed/part_000 are
   earlier snapshots of the same file).  JavaScript numbers are modelled as
   rationals.  The per-frame requestAnimationFrame cascade
   Engine.main → Renderer.draw → Player.move → Player.setDirection
   is modelled as one synchronous logical tick, exactly as the specification
   describes it: a tick performs Player.move (velocity clamp, position
   update with wraparound) followed by Player.setDirection on the intent
   vector aggregated from the currently held signals. -/

/- Constants from the top of the source file. -/

def FPS : ℚ := 60

def RESOLUTION : ℚ := 8

def MAX_VELOCITY : ℚ := 0.05

/- The DIRS lookup table `{ArrowUp: [0,-1], ArrowDown: [0,1],
   ArrowLeft: [-1,0], ArrowRight: [1,0]}`, modelled as a partial lookup
   (absent keys give none, as an absent property gives undefined). -/
def DIRS (k : String) : Option (ℚ × ℚ) :=
  if k = "ArrowUp" then some (0, -1)
  else if k = "ArrowDown" then some (0, 1)
  else if k = "ArrowLeft" then some (-1, 0)
  else if k = "ArrowRight" then some (1, 0)
  else none

/- Player data.  The render-only fields (speed, width, height, color) are
   never read by the simulation logic and are omitted. -/

structure Vec2 where
  dx : ℚ
  dy : ℚ
deriving DecidableEq

structure Player where
  x : ℚ
  y : ℚ
  direction : Vec2
  velocity : Vec2
deriving DecidableEq

/- Player instance constants `mass = 3` and `friction = 0.001`. -/

def mass : ℚ := 3

def friction : ℚ := 0.001

/- The Player constructor: x = 0, y = 0, velocity = {0,0}, direction = {0,0}. -/
def playerInit : Player := ⟨0, 0, ⟨0, 0⟩, ⟨0, 0⟩⟩

/- Player.setX computes maxX = canvas.width / (canvas.width / RESOLUTION);
   w is the canvas width. -/
def maxX (w : ℚ) : ℚ := w / (w / RESOLUTION)

def maxY (h : ℚ) : ℚ := h / (h / RESOLUTION)

def Player.setX (w : ℚ) (p : Player) (x : ℚ) : Player :=
  if x < 0 then { p with x := maxX w }
  else if x > maxX w then { p with x := 0 }
  else { p with x := x }

def Player.setY (h : ℚ) (p : Player) (y : ℚ) : Player :=
  if y < 0 then { p with y := maxY h }
  else if y > maxY h then { p with y := 0 }
  else { p with y := y }

/- Player.setDirection: first reassigns this.velocity (per axis: accelerate
   by friction*mass/2 while under MAX_VELOCITY when the intent component is
   non-zero, otherwise decrement by friction*mass), then reassigns
   this.direction reading the just-updated velocity.  The source condition
   `direction.dx !== 0 && direction.dx` is equivalent to `direction.dx ≠ 0`
   for numeric inputs. -/
def Player.setDirection (p : Player) (d : Vec2) : Player :=
  let v : Vec2 :=
    ⟨if d.dx ≠ 0 then
        (if p.velocity.dx < MAX_VELOCITY then p.velocity.dx + friction * mass / 2
         else p.velocity.dx)
      else p.velocity.dx - friction * mass,
     if d.dy ≠ 0 then
        (if p.velocity.dy < MAX_VELOCITY then p.velocity.dy + friction * mass / 2
         else p.velocity.dy)
      else p.velocity.dy - friction * mass⟩
  let dir : Vec2 :=
    ⟨if d.dx = 0 then (if v.dx > 0 then p.direction.dx else 0) else d.dx,
     if d.dy = 0 then (if v.dy > 0 then p.direction.dy else 0) else d.dy⟩
  { p with velocity := v, direction := dir }

/- Player.calculateDirection: map each held signal through DIRS and sum the
   unit vectors with reduce, starting from {dx: 0, dy: 0}. -/
def calculateDirection (dirs : List (String × Bool)) : Vec2 :=
  let newDirs := dirs.map (fun d => (DIRS d.1).getD (0, 0))
  newDirs.foldl (fun a b => ⟨a.dx + b.1, a.dy + b.2⟩) ⟨0, 0⟩

/- The filter chain in Player.move: keep the signals that are held (true)
   and whose name is a key of DIRS. -/
def activeDirs (sigs : List (String × Bool)) : List (String × Bool) :=
  (sigs.filter (fun s => s.2)).filter (fun s => (DIRS s.1).isSome)

/- The two clamping statements at the top of Player.move. -/
def clamp0 (v : ℚ) : ℚ := if v < 0 then 0 else v

/- Player.move: clamp negative velocity components to 0, update x with the
   extra friction*mass term (x axis only), update y, then feed the combined
   intent of the held directional signals to setDirection (the empty-signal
   case passes {dx: 0, dy: 0}). -/
def Player.move (w h : ℚ) (sigs : List (String × Bool)) (p : Player) : Player :=
  let p1 : Player := { p with velocity := ⟨clamp0 p.velocity.dx, clamp0 p.velocity.dy⟩ }
  let p2 : Player := p1.setX w (p1.x + (p1.velocity.dx + friction * mass) * p1.direction.dx)
  let p3 : Player := p2.setY h (p2.y + p2.velocity.dy * p2.direction.dy)
  let dirs := activeDirs sigs
  if dirs.length > 0 then p3.setDirection (calculateDirection dirs)
  else p3.setDirection ⟨0, 0⟩

/- One logical tick of the simulation on the player. -/
def tick (w h : ℚ) (sigs : List (String × Bool)) (p : Player) : Player :=
  Player.move w h sigs p

def applyTicks (w h : ℚ) (trace : List (List (String × Bool))) (p : Player) : Player :=
  trace.foldl (fun q sigs => tick w h sigs q) p

/- The combined intent vector of a signal set. -/
def intentOf (sigs : List (String × Bool)) : Vec2 :=
  calculateDirection (activeDirs sigs)

/- World: size stored as given; the constructor loops `for (i = 0; i < size;
   i++)`, so the number of rows (and of cells per row) is the number of
   naturals below size. -/

structure World where
  world : List (List Int)
  size : ℚ
deriving DecidableEq

def iterCount (s : ℚ) : ℕ := if s ≤ 0 then 0 else (⌈s⌉).toNat

def World.new (size : ℚ) : World :=
  ⟨List.replicate (iterCount size) (List.replicate (iterCount size) 0), size⟩

inductive GridError where
  | InvalidGridSize
deriving DecidableEq

/-- Modelled from the spec: the repository's World constructor performs no
size validation; the spec's §4.4/§7 `InvalidSize`/`InvalidGridSize` failure
on `size <= 0` exists only in the spec.  This definition follows the spec's
words: construction fails with InvalidGridSize when size ≤ 0 and otherwise
returns the constructed grid. -/
def World.newSpec (size : ℚ) : Except GridError World :=
  if size ≤ 0 then Except.error GridError.InvalidGridSize
  else Except.ok (World.new size)

/- Engine.  fpsInterval = 1000 / fps.  The signal field is the JS object
   used as a map from signal name to boolean (keys unique), modelled as an
   association list; setSignal merges with object spread (later keys win). -/

def fpsInterval : ℚ := 1000 / FPS

structure Engine where
  thenMs : ℚ
  nowMs : ℚ
  elapsed : ℚ
  startTime : ℚ
  running : Bool
  signal : List (String × Bool)
  world : Option World
  player : Player
deriving DecidableEq

def engineInit : Engine := ⟨0, 0, 0, 0, false, [], none, playerInit⟩

def mergeSignal (m : List (String × Bool)) (kv : String × Bool) : List (String × Bool) :=
  if m.any (fun e => e.1 = kv.1) then
    m.map (fun e => if e.1 = kv.1 then (e.1, kv.2) else e)
  else m ++ [kv]

def mergeSignals (m delta : List (String × Bool)) : List (String × Bool) :=
  delta.foldl mergeSignal m

def Engine.setSignal (e : Engine) (sig : List (String × Bool)) : Engine :=
  { e with signal := mergeSignals e.signal sig }

/- Engine.input: only when running does it schedule setSignal and a main
   invocation; otherwise the delivered update is dropped entirely. -/
def Engine.input (e : Engine) (sig : List (String × Bool)) : Engine :=
  if e.running then e.setSignal sig else e

/- The JavaScript % on our (positive-divisor) operands. -/
def jsMod (x y : ℚ) : ℚ := x - y * ⌊x / y⌋

/- Engine.main, the tick entry point: elapsed = now - then; when elapsed
   exceeds fpsInterval, carry the sub-interval remainder into then and
   perform one update/draw (hence one physics step on the player and one
   render notification); otherwise only the now/elapsed bookkeeping fields
   change.  The returned Bool records whether the step was performed. -/
def Engine.main (w h nowMs : ℚ) (e : Engine) : Engine × Bool :=
  let elapsed := nowMs - e.thenMs
  let e1 : Engine := { e with nowMs := nowMs, elapsed := elapsed }
  if elapsed > fpsInterval then
    ({ e1 with thenMs := nowMs - jsMod elapsed fpsInterval,
               player := tick w h e1.signal e1.player }, true)
  else (e1, false)

/- Engine.start: set running, reset the clock, create the World with size
   canvas.width / 10, then invoke main. -/
def Engine.start (w h nowMs : ℚ) (e : Engine) : Engine :=
  let e1 : Engine := { e with running := true, thenMs := nowMs, startTime := nowMs,
                              world := some (World.new (w / 10)) }
  (Engine.main w h nowMs e1).1

/- The wraparound function implemented by the branches of setX/setY. -/
def wrap (m v : ℚ) : ℚ := if v < 0 then m else if v > m then 0 else v

example : MAX_VELOCITY = 1 / 20 := by norm_num [MAX_VELOCITY]

example : friction * mass = 3 / 1000 := by norm_num [friction, mass]

example : (DIRS "ArrowLeft").isSome := by decide

/- Field bookkeeping lemmas for the player pipeline. -/

theorem setX_velocity (w : ℚ) (p : Player) (x : ℚ) : (p.setX w x).velocity = p.velocity := by
  unfold Player.setX; split_ifs <;> rfl

theorem setX_direction (w : ℚ) (p : Player) (x : ℚ) : (p.setX w x).direction = p.direction := by
  unfold Player.setX; split_ifs <;> rfl

theorem setX_y (w : ℚ) (p : Player) (x : ℚ) : (p.setX w x).y = p.y := by
  unfold Player.setX; split_ifs <;> rfl

theorem setX_x (w : ℚ) (p : Player) (x : ℚ) : (p.setX w x).x = wrap (maxX w) x := by
  unfold Player.setX wrap; split_ifs <;> rfl

theorem setY_velocity (h : ℚ) (p : Player) (y : ℚ) : (p.setY h y).velocity = p.velocity := by
  unfold Player.setY; split_ifs <;> rfl

theorem setY_direction (h : ℚ) (p : Player) (y : ℚ) : (p.setY h y).direction = p.direction := by
  unfold Player.setY; split_ifs <;> rfl

theorem setY_x (h : ℚ) (p : Player) (y : ℚ) : (p.setY h y).x = p.x := by
  unfold Player.setY; split_ifs <;> rfl

theorem setY_y (h : ℚ) (p : Player) (y : ℚ) : (p.setY h y).y = wrap (maxY h) y := by
  unfold Player.setY wrap; split_ifs <;> rfl

theorem setDirection_x (p : Player) (d : Vec2) : (p.setDirection d).x = p.x := rfl

theorem setDirection_y (p : Player) (d : Vec2) : (p.setDirection d).y = p.y := rfl

theorem setDirection_velocity_dx (p : Player) (d : Vec2) :
    (p.setDirection d).velocity.dx =
      if d.dx ≠ 0 then
        (if p.velocity.dx < MAX_VELOCITY then p.velocity.dx + friction * mass / 2
         else p.velocity.dx)
      else p.velocity.dx - friction * mass := rfl

theorem setDirection_velocity_dy (p : Player) (d : Vec2) :
    (p.setDirection d).velocity.dy =
      if d.dy ≠ 0 then
        (if p.velocity.dy < MAX_VELOCITY then p.velocity.dy + friction * mass / 2
         else p.velocity.dy)
      else p.velocity.dy - friction * mass := rfl

theorem setDirection_direction_dx (p : Player) (d : Vec2) :
    (p.setDirection d).direction.dx =
      if d.dx = 0 then (if (p.setDirection d).velocity.dx > 0 then p.direction.dx else 0)
      else d.dx := rfl

theorem setDirection_direction_dy (p : Player) (d : Vec2) :
    (p.setDirection d).direction.dy =
      if d.dy = 0 then (if (p.setDirection d).velocity.dy > 0 then p.direction.dy else 0)
      else d.dy := rfl

/- The empty-signal branch of Player.move coincides with feeding the
   (zero) aggregated intent, so every tick is a setDirection on intentOf. -/
theorem tick_eq_setDirection (w h : ℚ) (sigs : List (String × Bool)) (p : Player) :
    tick w h sigs p =
      (((Player.setX w { p with velocity := ⟨clamp0 p.velocity.dx, clamp0 p.velocity.dy⟩ }
          (p.x + (clamp0 p.velocity.dx + friction * mass) * p.direction.dx)).setY h
          (p.y + clamp0 p.velocity.dy * p.direction.dy)).setDirection (intentOf sigs)) := by
  unfold tick Player.move intentOf
  cases hd : activeDirs sigs with
  | nil => simp [hd, calculateDirection, setX_velocity, setX_direction, setX_y]
  | cons a t => simp [hd, setX_velocity, setX_direction, setX_y]

/- Per-axis characterization of one tick: the velocity rule actually
   implemented (accelerate by friction*mass/2 only while strictly below
   MAX_VELOCITY; decrement by friction*mass with no immediate floor). -/

theorem tick_velocity_dx (w h : ℚ) (sigs : List (String × Bool)) (p : Player) :
    (tick w h sigs p).velocity.dx =
      if (intentOf sigs).dx ≠ 0 then
        (if clamp0 p.velocity.dx < MAX_VELOCITY then clamp0 p.velocity.dx + friction * mass / 2
         else clamp0 p.velocity.dx)
      else clamp0 p.velocity.dx - friction * mass := by
  rw [tick_eq_setDirection, setDirection_velocity_dx]
  simp [setY_velocity, setX_velocity]

theorem tick_velocity_dy (w h : ℚ) (sigs : List (String × Bool)) (p : Player) :
    (tick w h sigs p).velocity.dy =
      if (intentOf sigs).dy ≠ 0 then
        (if clamp0 p.velocity.dy < MAX_VELOCITY then clamp0 p.velocity.dy + friction * mass / 2
         else clamp0 p.velocity.dy)
      else clamp0 p.velocity.dy - friction * mass := by
  rw [tick_eq_setDirection, setDirection_velocity_dy]
  simp [setY_velocity, setX_velocity]

theorem tick_direction_dx (w h : ℚ) (sigs : List (String × Bool)) (p : Player) :
    (tick w h sigs p).direction.dx =
      if (intentOf sigs).dx = 0 then
        (if (tick w h sigs p).velocity.dx > 0 then p.direction.dx else 0)
      else (intentOf sigs).dx := by
  conv_lhs => rw [tick_eq_setDirection, setDirection_direction_dx]
  rw [tick_eq_setDirection]
  simp [setY_direction, setX_direction]

theorem tick_direction_dy (w h : ℚ) (sigs : List (String × Bool)) (p : Player) :
    (tick w h sigs p).direction.dy =
      if (intentOf sigs).dy = 0 then
        (if (tick w h sigs p).velocity.dy > 0 then p.direction.dy else 0)
      else (intentOf sigs).dy := by
  conv_lhs => rw [tick_eq_setDirection, setDirection_direction_dy]
  rw [tick_eq_setDirection]
  simp [setY_direction, setX_direction]

theorem tick_x (w h : ℚ) (sigs : List (String × Bool)) (p : Player) :
    (tick w h sigs p).x =
      wrap (maxX w) (p.x + (clamp0 p.velocity.dx + friction * mass) * p.direction.dx) := by
  rw [tick_eq_setDirection, setDirection_x, setY_x, setX_x]

theorem tick_y (w h : ℚ) (sigs : List (String × Bool)) (p : Player) :
    (tick w h sigs p).y =
      wrap (maxY h) (p.y + clamp0 p.velocity.dy * p.direction.dy) := by
  rw [tick_eq_setDirection, setDirection_y, setY_y]

/- Aggregation: the reduce in calculateDirection is the component-wise sum
   of the looked-up unit vectors. -/

theorem foldl_vec_sum (l : List (ℚ × ℚ)) (a : Vec2) :
    l.foldl (fun a b => (⟨a.dx + b.1, a.dy + b.2⟩ : Vec2)) a =
      ⟨a.dx + (l.map Prod.fst).sum, a.dy + (l.map Prod.snd).sum⟩ := by
  induction l generalizing a with
  | nil => simp
  | cons x t ih =>
    rw [List.foldl_cons, ih]
    simp only [List.map_cons, List.sum_cons, Vec2.mk.injEq]
    exact ⟨by ring, by ring⟩

theorem calculateDirection_sum (dirs : List (String × Bool)) :
    calculateDirection dirs =
      ⟨((dirs.map (fun d => (DIRS d.1).getD (0, 0))).map Prod.fst).sum,
       ((dirs.map (fun d => (DIRS d.1).getD (0, 0))).map Prod.snd).sum⟩ := by
  unfold calculateDirection
  rw [foldl_vec_sum]
  norm_num

/- Per-key x and y contributions of the DIRS table. -/

def cdx (k : String) : ℚ := ((DIRS k).getD (0, 0)).1

def cdy (k : String) : ℚ := ((DIRS k).getD (0, 0)).2

theorem cdx_left : cdx "ArrowLeft" = -1 := rfl

theorem cdx_right : cdx "ArrowRight" = 1 := rfl

theorem cdy_up : cdy "ArrowUp" = -1 := rfl

theorem cdy_down : cdy "ArrowDown" = 1 := rfl

theorem cdx_vanish (k : String) (h1 : k ≠ "ArrowLeft") (h2 : k ≠ "ArrowRight") : cdx k = 0 := by
  unfold cdx DIRS
  split_ifs <;> simp_all

theorem cdy_vanish (k : String) (h1 : k ≠ "ArrowUp") (h2 : k ≠ "ArrowDown") : cdy k = 0 := by
  unfold cdy DIRS
  split_ifs <;> simp_all

theorem intent_dx_sum (sigs : List (String × Bool)) :
    (intentOf sigs).dx = (((activeDirs sigs).map Prod.fst).map cdx).sum := by
  unfold intentOf
  rw [calculateDirection_sum]
  simp only [List.map_map]
  have hfun : (Prod.fst ∘ fun d : String × Bool => (DIRS d.1).getD ((0 : ℚ), (0 : ℚ))) = (cdx ∘ Prod.fst) := by
    funext d
    simp [cdx, Function.comp]
  rw [hfun]

theorem intent_dy_sum (sigs : List (String × Bool)) :
    (intentOf sigs).dy = (((activeDirs sigs).map Prod.fst).map cdy).sum := by
  unfold intentOf
  rw [calculateDirection_sum]
  simp only [List.map_map]
  have hfun : (Prod.snd ∘ fun d : String × Bool => (DIRS d.1).getD ((0 : ℚ), (0 : ℚ))) = (cdy ∘ Prod.fst) := by
    funext d
    simp [cdy, Function.comp]
  rw [hfun]

/- A sum of a function supported on two keys, over a duplicate-free list. -/
theorem sum_two_keys (f : String → ℚ) (a b : String) (hab : a ≠ b)
    (hf : ∀ k, k ≠ a → k ≠ b → f k = 0) (l : List String) :
    l.Nodup → (l.map f).sum = (if a ∈ l then f a else 0) + (if b ∈ l then f b else 0) := by
  induction l with
  | nil => intro _; simp
  | cons k t ih =>
    intro hnd
    obtain ⟨hkt, hndt⟩ := List.nodup_cons.mp hnd
    rw [List.map_cons, List.sum_cons, ih hndt]
    simp only [List.mem_cons]
    by_cases hka : k = a
    · subst hka
      simp [hkt, Ne.symm hab]
    · by_cases hkb : k = b
      · subst hkb
        simp [hkt, hab]
        ring
      · rw [hf k hka hkb]
        simp [Ne.symm hka, Ne.symm hkb]

theorem activeDirs_keys_nodup (sigs : List (String × Bool))
    (hnd : (sigs.map Prod.fst).Nodup) : ((activeDirs sigs).map Prod.fst).Nodup := by
  unfold activeDirs
  have h1 : ((sigs.filter fun s => s.2).filter fun s => (DIRS s.1).isSome).Sublist sigs :=
    (List.filter_sublist _).trans (List.filter_sublist _)
  exact List.Nodup.sublist (h1.map Prod.fst) hnd

theorem intent_dx_cases (sigs : List (String × Bool))
    (hnd : (sigs.map Prod.fst).Nodup) :
    (intentOf sigs).dx = -1 ∨ (intentOf sigs).dx = 0 ∨ (intentOf sigs).dx = 1 := by
  rw [intent_dx_sum,
    sum_two_keys cdx "ArrowLeft" "ArrowRight" (by decide) cdx_vanish _
      (activeDirs_keys_nodup sigs hnd), cdx_left, cdx_right]
  split_ifs <;> norm_num

theorem intent_dy_cases (sigs : List (String × Bool))
    (hnd : (sigs.map Prod.fst).Nodup) :
    (intentOf sigs).dy = -1 ∨ (intentOf sigs).dy = 0 ∨ (intentOf sigs).dy = 1 := by
  rw [intent_dy_sum,
    sum_two_keys cdy "ArrowUp" "ArrowDown" (by decide) cdy_vanish _
      (activeDirs_keys_nodup sigs hnd), cdy_up, cdy_down]
  split_ifs <;> norm_num

/- Numeric facts about the tuning constants. -/

theorem fm_pos : (0 : ℚ) < friction * mass := by norm_num [friction, mass]

theorem clamp0_nonneg (v : ℚ) : 0 ≤ clamp0 v := by
  unfold clamp0; split_ifs <;> linarith

theorem clamp0_lt (v c : ℚ) (hc : 0 < c) (hv : v < c) : clamp0 v < c := by
  unfold clamp0; split_ifs <;> linarith

/- maxX is RESOLUTION whenever the canvas width is non-zero (the width
   cancels), and non-negative always. -/

theorem maxX_eq (w : ℚ) (hw : w ≠ 0) : maxX w = RESOLUTION := by
  unfold maxX
  rw [div_div_eq_mul_div, mul_comm, mul_div_assoc, div_self hw, mul_one]

theorem maxY_eq (h : ℚ) (hh : h ≠ 0) : maxY h = RESOLUTION := by
  unfold maxY
  rw [div_div_eq_mul_div, mul_comm, mul_div_assoc, div_self hh, mul_one]

theorem maxX_nonneg (w : ℚ) : 0 ≤ maxX w := by
  by_cases hw : w = 0
  · simp [maxX, hw]
  · rw [maxX_eq w hw]; norm_num [RESOLUTION]

theorem maxY_nonneg (h : ℚ) : 0 ≤ maxY h := by
  by_cases hh : h = 0
  · simp [maxY, hh]
  · rw [maxY_eq h hh]; norm_num [RESOLUTION]

/- The Engine.main step never touches the world, and behaves as the two
   branches of the elapsed test. -/

theorem engineMain_world (w h now : ℚ) (e : Engine) :
    (Engine.main w h now e).1.world = e.world := by
  simp only [Engine.main]
  split_ifs <;> rfl

/- The invariant that actually holds for the velocity components: they stay
   within [-friction*mass, MAX_VELOCITY + friction*mass/2). -/

def VelInv (p : Player) : Prop :=
  -(friction * mass) ≤ p.velocity.dx ∧
  p.velocity.dx < MAX_VELOCITY + friction * mass / 2 ∧
  -(friction * mass) ≤ p.velocity.dy ∧
  p.velocity.dy < MAX_VELOCITY + friction * mass / 2

theorem velAxis_bounds (v i : ℚ) (hv : v < MAX_VELOCITY + friction * mass / 2) :
    -(friction * mass) ≤
      (if i ≠ 0 then
        (if clamp0 v < MAX_VELOCITY then clamp0 v + friction * mass / 2 else clamp0 v)
       else clamp0 v - friction * mass) ∧
      (if i ≠ 0 then
        (if clamp0 v < MAX_VELOCITY then clamp0 v + friction * mass / 2 else clamp0 v)
       else clamp0 v - friction * mass) < MAX_VELOCITY + friction * mass / 2 := by
  have c0 := clamp0_nonneg v
  have cl : clamp0 v < MAX_VELOCITY + friction * mass / 2 :=
    clamp0_lt _ _ (by norm_num [MAX_VELOCITY, friction, mass]) hv
  have hfm : (0 : ℚ) < friction * mass := fm_pos
  have hmv : (0 : ℚ) < MAX_VELOCITY := by norm_num [MAX_VELOCITY]
  split_ifs with hi hvm
  · constructor <;> linarith
  · constructor <;> linarith
  · constructor <;> linarith

theorem velInv_tick (w h : ℚ) (sigs : List (String × Bool)) (p : Player)
    (hp : VelInv p) : VelInv (tick w h sigs p) := by
  obtain ⟨h1, h2, h3, h4⟩ := hp
  have hx := velAxis_bounds p.velocity.dx (intentOf sigs).dx h2
  have hy := velAxis_bounds p.velocity.dy (intentOf sigs).dy h4
  refine ⟨?_, ?_, ?_, ?_⟩
  · rw [tick_velocity_dx]; exact hx.1
  · rw [tick_velocity_dx]; exact hx.2
  · rw [tick_velocity_dy]; exact hy.1
  · rw [tick_velocity_dy]; exact hy.2

theorem velInv_init : VelInv playerInit := by
  unfold VelInv playerInit
  norm_num [friction, mass, MAX_VELOCITY]

theorem velInv_applyTicks (w h : ℚ) (trace : List (List (String × Bool))) :
    ∀ p : Player, VelInv p → VelInv (applyTicks w h trace p) := by
  induction trace with
  | nil => intro p hp; exact hp
  | cons s t ih =>
    intro p hp
    exact ih (tick w h s p) (velInv_tick w h s p hp)

/- The trace evaluation lemmas for the monotone-acceleration scenario. -/

theorem applyTicks_append (w h : ℚ) (l1 l2 : List (List (String × Bool))) (p : Player) :
    applyTicks w h (l1 ++ l2) p = applyTicks w h l2 (applyTicks w h l1 p) := by
  unfold applyTicks
  rw [List.foldl_append]

def rightSig : List (String × Bool) := [("ArrowRight", true)]

theorem intentOf_rightSig : intentOf rightSig = ⟨1, 0⟩ := by
  simp [rightSig, intentOf, activeDirs, calculateDirection, DIRS]

theorem tick_right_vel (w h : ℚ) (p : Player) :
    (tick w h rightSig p).velocity.dx =
      if clamp0 p.velocity.dx < MAX_VELOCITY then clamp0 p.velocity.dx + friction * mass / 2
      else clamp0 p.velocity.dx := by
  rw [tick_velocity_dx, intentOf_rightSig]
  norm_num

/- Holding ArrowRight from rest: the velocity is exactly n * friction*mass/2
   after n ticks, for every n ≤ 34 — one step beyond the cap, because the
   acceleration test compares the current value, not the incremented one. -/
theorem right_run (w h : ℚ) : ∀ n : ℕ, n ≤ 34 →
    (applyTicks w h (List.replicate n rightSig) playerInit).velocity.dx
      = n * (3 / 2000) := by
  intro n
  induction n with
  | zero => intro _; simp [applyTicks, playerInit]
  | succ m ih =>
    intro hm
    have hm33 : m ≤ 33 := by omega
    rw [List.replicate_succ', applyTicks_append]
    have hsingle : applyTicks w h [rightSig] (applyTicks w h (List.replicate m rightSig) playerInit)
        = tick w h rightSig (applyTicks w h (List.replicate m rightSig) playerInit) := rfl
    rw [hsingle, tick_right_vel, ih (by omega)]
    have hmq : (m : ℚ) ≤ 33 := by exact_mod_cast hm33
    have hnn : (0 : ℚ) ≤ (m : ℚ) * (3 / 2000) := by positivity
    have hcl : clamp0 ((m : ℚ) * (3 / 2000)) = (m : ℚ) * (3 / 2000) := by
      unfold clamp0; rw [if_neg]; linarith
    rw [hcl]
    have hlt : (m : ℚ) * (3 / 2000) < MAX_VELOCITY := by
      have hb : (m : ℚ) * (3 / 2000) ≤ 33 * (3 / 2000) :=
        mul_le_mul_of_nonneg_right hmq (by norm_num)
      norm_num [MAX_VELOCITY]
      linarith
    rw [if_pos hlt]
    push_cast
    norm_num [friction, mass]
    ring

/-- C1 counterexample: the stated invariant 0 ≤ velocity ≤ MAX_VELOCITY fails
on reachable states.  One tick with no signals held, from the initial player,
drives velocity.dx to -0.003 < 0 (the friction decrement has no immediate
floor), and 34 consecutive ticks holding ArrowRight drive velocity.dx to
0.051 > MAX_VELOCITY = 0.05 (the acceleration guard tests the value before
the increment, so the cap can be overshot by friction*mass/2). -/
theorem C1_counterexample :
    (applyTicks 800 600 [[]] playerInit).velocity.dx = -(3 / 1000) ∧
    ¬(0 ≤ (applyTicks 800 600 [[]] playerInit).velocity.dx) ∧
    (applyTicks 800 600 (List.replicate 34 rightSig) playerInit).velocity.dx = 51 / 1000 ∧
    MAX_VELOCITY < (applyTicks 800 600 (List.replicate 34 rightSig) playerInit).velocity.dx := by
  have h1 : (applyTicks 800 600 [[]] playerInit).velocity.dx = -(3 / 1000) := by
    have he : applyTicks 800 600 [[]] playerInit = tick 800 600 [] playerInit := rfl
    rw [he, tick_velocity_dx]
    norm_num [intentOf, activeDirs, calculateDirection, clamp0, playerInit, friction, mass]
  have h2 : (applyTicks 800 600 (List.replicate 34 rightSig) playerInit).velocity.dx
      = 51 / 1000 := by
    rw [right_run 800 600 34 (by norm_num)]
    norm_num
  refine ⟨h1, ?_, h2, ?_⟩
  · rw [h1]; norm_num
  · rw [h2]; norm_num [MAX_VELOCITY]

/-- C1 (amended): in every state reachable through any sequence of ticks from
the initial player state, each velocity component v satisfies
-frictionCoefficient*mass ≤ v < MAX_VELOCITY + frictionCoefficient*mass/2
(that is, -0.003 ≤ v < 0.0515); the component is additionally clamped to
≥ 0 at the start of each move, but the post-tick value can dip to -0.003 and
can exceed MAX_VELOCITY by up to frictionCoefficient*mass/2. -/
theorem C1_velocity_bounds (w h : ℚ) (trace : List (List (String × Bool))) :
    -(friction * mass) ≤ (applyTicks w h trace playerInit).velocity.dx ∧
    (applyTicks w h trace playerInit).velocity.dx < MAX_VELOCITY + friction * mass / 2 ∧
    -(friction * mass) ≤ (applyTicks w h trace playerInit).velocity.dy ∧
    (applyTicks w h trace playerInit).velocity.dy < MAX_VELOCITY + friction * mass / 2 :=
  velInv_applyTicks w h trace playerInit velInv_init

/-- C2 counterexample: with lastTickMs = 0 and nowMs = 1000/60 = intervalMs,
elapsed equals intervalMs exactly, so the claim's "otherwise" branch demands
a step returning true; the code's strict test `elapsed > fpsInterval` drops
the frame and performs no step, returning false. -/
theorem C2_counterexample :
    ¬((1000 / 60 : ℚ) - engineInit.thenMs < fpsInterval) ∧
    (Engine.main 800 600 (1000 / 60) engineInit).2 = false ∧
    (Engine.main 800 600 (1000 / 60) engineInit).1.player = engineInit.player := by
  have hc : ¬((1000 / 60 : ℚ) - engineInit.thenMs > fpsInterval) := by
    norm_num [engineInit, fpsInterval, FPS]
  refine ⟨by norm_num [engineInit, fpsInterval, FPS], ?_, ?_⟩
  · simp only [Engine.main]
    rw [if_neg hc]
  · simp only [Engine.main]
    rw [if_neg hc]

/-- C2 (amended): for every call of the tick entry point with current time
nowMs, letting elapsed = nowMs - lastTickMs: if elapsed ≤ intervalMs the
call leaves Player, WorldGrid, the signal set and lastTickMs unchanged and
returns false; if elapsed > intervalMs (strictly), lastTickMs is set to
nowMs - (elapsed mod intervalMs) and exactly one physics step and one render
notification are performed, returning true.  (The original claim's boundary
case elapsed = intervalMs is a dropped frame, not a step.) -/
theorem C2_scheduler (w h now : ℚ) (e : Engine) :
    (now - e.thenMs ≤ fpsInterval →
      (Engine.main w h now e).1.player = e.player ∧
      (Engine.main w h now e).1.world = e.world ∧
      (Engine.main w h now e).1.signal = e.signal ∧
      (Engine.main w h now e).1.thenMs = e.thenMs ∧
      (Engine.main w h now e).2 = false) ∧
    (fpsInterval < now - e.thenMs →
      (Engine.main w h now e).1.thenMs = now - jsMod (now - e.thenMs) fpsInterval ∧
      (Engine.main w h now e).1.player = tick w h e.signal e.player ∧
      (Engine.main w h now e).1.world = e.world ∧
      (Engine.main w h now e).2 = true) := by
  constructor
  · intro hle
    simp only [Engine.main]
    rw [if_neg (not_lt.mpr hle)]
    exact ⟨rfl, rfl, rfl, rfl, rfl⟩
  · intro hgt
    simp only [Engine.main]
    rw [if_pos hgt]
    exact ⟨rfl, rfl, rfl, rfl⟩

/-- Witness for C2 (amended) at nowMs = 5, from the initial engine state:
elapsed = 5 ≤ 50/3, so the call is a no-op on the player and returns false. -/
theorem C2_scheduler_witness :
    (Engine.main 800 600 5 engineInit).1.player = engineInit.player ∧
    (Engine.main 800 600 5 engineInit).1.world = engineInit.world ∧
    (Engine.main 800 600 5 engineInit).1.signal = engineInit.signal ∧
    (Engine.main 800 600 5 engineInit).1.thenMs = engineInit.thenMs ∧
    (Engine.main 800 600 5 engineInit).2 = false :=
  (C2_scheduler 800 600 5 engineInit).1 (by norm_num [engineInit, fpsInterval, FPS])

/- Concrete states for the velocity-rule counterexample. -/

def pNearMax : Player := ⟨0, 0, ⟨1, 0⟩, ⟨49 / 1000, 0⟩⟩

def pSlow : Player := ⟨0, 0, ⟨1, 0⟩, ⟨3 / 2000, 0⟩⟩

/-- C3 counterexample: one tick holding ArrowRight from velocity.dx = 0.049
produces 0.0505 > maxVelocity (the increase is not clamped at maxVelocity),
and one tick with no intent from velocity.dx = 0.0015 produces -0.0015 < 0
(the decrease is not floored at 0 within the update). -/
theorem C3_counterexample :
    (tick 800 600 rightSig pNearMax).velocity.dx = 101 / 2000 ∧
    MAX_VELOCITY < (tick 800 600 rightSig pNearMax).velocity.dx ∧
    (tick 800 600 [] pSlow).velocity.dx = -(3 / 2000) ∧
    (tick 800 600 [] pSlow).velocity.dx < 0 := by
  have h1 : (tick 800 600 rightSig pNearMax).velocity.dx = 101 / 2000 := by
    rw [tick_right_vel]
    norm_num [pNearMax, clamp0, MAX_VELOCITY, friction, mass]
  have h2 : (tick 800 600 [] pSlow).velocity.dx = -(3 / 2000) := by
    rw [tick_velocity_dx]
    norm_num [intentOf, activeDirs, calculateDirection, pSlow, clamp0, friction, mass]
  refine ⟨h1, ?_, h2, ?_⟩
  · rw [h1]; norm_num [MAX_VELOCITY]
  · rw [h2]; norm_num

/-- C3 (amended): per tick and per axis, with v the velocity at the start of
the tick clamped at 0: if the intent component is non-zero the axis velocity
becomes v + frictionCoefficient*mass/2 when v < maxVelocity and stays v
otherwise (so a step may overshoot maxVelocity by up to
frictionCoefficient*mass/2); if the intent component is zero it becomes
v - frictionCoefficient*mass, with no immediate floor (the clamp to 0 is
applied only at the start of the next tick's move). -/
theorem C3_velocity_rule (w h : ℚ) (sigs : List (String × Bool)) (p : Player) :
    (tick w h sigs p).velocity.dx =
      (if (intentOf sigs).dx ≠ 0 then
        (if clamp0 p.velocity.dx < MAX_VELOCITY then clamp0 p.velocity.dx + friction * mass / 2
         else clamp0 p.velocity.dx)
      else clamp0 p.velocity.dx - friction * mass) ∧
    (tick w h sigs p).velocity.dy =
      (if (intentOf sigs).dy ≠ 0 then
        (if clamp0 p.velocity.dy < MAX_VELOCITY then clamp0 p.velocity.dy + friction * mass / 2
         else clamp0 p.velocity.dy)
      else clamp0 p.velocity.dy - friction * mass) :=
  ⟨tick_velocity_dx w h sigs p, tick_velocity_dy w h sigs p⟩

/-- C4 counterexample: hold ArrowRight for one tick (velocity.dx = 0.0015 > 0,
direction.dx = 1), then release everything.  On the release tick the
direction.dx is forced to 0, but velocity.dx on that same tick is -0.0015,
not 0: the velocity skips over 0 (it is clamped back to 0 only at the start
of the next move), so direction.dx does not become 0 "exactly on the tick
where velocity.dx first reaches 0" — it becomes 0 one tick earlier, while
the stored velocity is still negative. -/
theorem C4_counterexample :
    (tick 800 600 rightSig playerInit).velocity.dx = 3 / 2000 ∧
    (tick 800 600 rightSig playerInit).direction.dx = 1 ∧
    (tick 800 600 [] (tick 800 600 rightSig playerInit)).direction.dx = 0 ∧
    (tick 800 600 [] (tick 800 600 rightSig playerInit)).velocity.dx = -(3 / 2000) := by
  have hint : (intentOf ([] : List (String × Bool))).dx = 0 := rfl
  have h1 : (tick 800 600 rightSig playerInit).velocity.dx = 3 / 2000 := by
    rw [tick_right_vel]
    norm_num [playerInit, clamp0, MAX_VELOCITY, friction, mass]
  have h2 : (tick 800 600 rightSig playerInit).direction.dx = 1 := by
    rw [tick_direction_dx, intentOf_rightSig]
    norm_num
  have h3 : (tick 800 600 [] (tick 800 600 rightSig playerInit)).velocity.dx
      = -(3 / 2000) := by
    rw [tick_velocity_dx, hint, h1]
    norm_num [clamp0, friction, mass]
  have h4 : (tick 800 600 [] (tick 800 600 rightSig playerInit)).direction.dx = 0 := by
    rw [tick_direction_dx, hint, h3]
    norm_num
  exact ⟨h1, h2, h4, h3⟩

/-- C4 (amended): per tick and axis, the direction component is set to the
intent component when it is non-zero (for a duplicate-free signal set the
non-zero intent component is ±1, its own sign); when the intent component is
zero, the direction component is retained exactly when the tick's updated
velocity is still > 0 and forced to 0 otherwise — that is, direction.dx
becomes 0 on the first tick where the decremented velocity is ≤ 0, which can
be a tick on which the stored velocity is negative (it reads 0 only from the
next move's clamp), one tick before the velocity itself reads 0.  Position
still advances on each momentum tick: with direction.dx = 1 and zero intent,
x increases by clamp0 velocity.dx + frictionCoefficient*mass whenever no
wraparound occurs. -/
theorem C4_direction_rule :
    (∀ (w h : ℚ) (sigs : List (String × Bool)) (p : Player),
      (sigs.map Prod.fst).Nodup → (intentOf sigs).dx ≠ 0 →
      (tick w h sigs p).direction.dx = (intentOf sigs).dx ∧
      ((intentOf sigs).dx = 1 ∨ (intentOf sigs).dx = -1)) ∧
    (∀ (w h : ℚ) (sigs : List (String × Bool)) (p : Player),
      (intentOf sigs).dx = 0 →
      (tick w h sigs p).direction.dx =
        (if (tick w h sigs p).velocity.dx > 0 then p.direction.dx else 0)) ∧
    (∀ (w h : ℚ) (sigs : List (String × Bool)) (p : Player),
      (intentOf sigs).dx = 0 → p.direction.dx = 1 →
      0 ≤ p.x + (clamp0 p.velocity.dx + friction * mass) →
      p.x + (clamp0 p.velocity.dx + friction * mass) ≤ maxX w →
      (tick w h sigs p).x = p.x + (clamp0 p.velocity.dx + friction * mass) ∧
      p.x < (tick w h sigs p).x) := by
  refine ⟨?_, ?_, ?_⟩
  · intro w h sigs p hnd hne
    refine ⟨?_, ?_⟩
    · rw [tick_direction_dx, if_neg hne]
    · rcases intent_dx_cases sigs hnd with hc | hc | hc
      · exact Or.inr hc
      · exact absurd hc hne
      · exact Or.inl hc
  · intro w h sigs p h0
    rw [tick_direction_dx, if_pos h0]
  · intro w h sigs p h0 hdir hlo hhi
    have harg : p.x + (clamp0 p.velocity.dx + friction * mass) * p.direction.dx
        = p.x + (clamp0 p.velocity.dx + friction * mass) := by
      rw [hdir]; ring
    have hx : (tick w h sigs p).x = p.x + (clamp0 p.velocity.dx + friction * mass) := by
      rw [tick_x, harg]
      unfold wrap
      rw [if_neg (not_lt.mpr hlo), if_neg (not_lt.mpr hhi)]
    refine ⟨hx, ?_⟩
    rw [hx]
    have := clamp0_nonneg p.velocity.dx
    have := fm_pos
    linarith

/-- Witness for C4 (amended): the sign rule at one held ArrowRight from the
initial player, the zeroing rule on a release tick, and the momentum
position advance from pSlow (x = 0, direction.dx = 1, velocity.dx = 0.0015)
with no wraparound: x advances to 0.0045. -/
theorem C4_direction_rule_witness :
    (tick 800 600 rightSig playerInit).direction.dx = (intentOf rightSig).dx ∧
    (tick 800 600 [] playerInit).direction.dx =
      (if (tick 800 600 [] playerInit).velocity.dx > 0 then playerInit.direction.dx else 0) ∧
    (tick 800 600 [] pSlow).x = pSlow.x + (clamp0 pSlow.velocity.dx + friction * mass) ∧
    pSlow.x < (tick 800 600 [] pSlow).x := by
  have hm : maxX 800 = RESOLUTION := maxX_eq 800 (by norm_num)
  have h3 := C4_direction_rule.2.2 800 600 [] pSlow rfl rfl
      (by norm_num [pSlow, clamp0, friction, mass])
      (by rw [hm]; norm_num [pSlow, clamp0, friction, mass, RESOLUTION])
  exact ⟨(C4_direction_rule.1 800 600 rightSig playerInit (by simp [rightSig])
      (by rw [intentOf_rightSig]; norm_num)).1,
    C4_direction_rule.2.1 800 600 [] playerInit rfl, h3.1, h3.2⟩

/-- C5: toroidal wraparound of the player position: on either axis, a
position strictly above the extent (maxX/maxY) wraps to 0, a position
strictly below 0 wraps to the extent, an in-range position is stored
unchanged, and an overflow is never clamped to the boundary value. -/
theorem C5_wraparound (w h : ℚ) (p : Player) (x y : ℚ) :
    (x > maxX w → (p.setX w x).x = 0) ∧
    (x < 0 → (p.setX w x).x = maxX w) ∧
    (0 ≤ x → x ≤ maxX w → (p.setX w x).x = x) ∧
    (0 < maxX w → x > maxX w → (p.setX w x).x ≠ maxX w) ∧
    (y > maxY h → (p.setY h y).y = 0) ∧
    (y < 0 → (p.setY h y).y = maxY h) ∧
    (0 ≤ y → y ≤ maxY h → (p.setY h y).y = y) := by
  have hxw := maxX_nonneg w
  have hyh := maxY_nonneg h
  refine ⟨?_, ?_, ?_, ?_, ?_, ?_, ?_⟩
  · intro h1
    rw [setX_x]; unfold wrap
    rw [if_neg (by linarith), if_pos h1]
  · intro h1
    rw [setX_x]; unfold wrap
    rw [if_pos h1]
  · intro h1 h2
    rw [setX_x]; unfold wrap
    rw [if_neg (not_lt.mpr h1), if_neg (not_lt.mpr h2)]
  · intro h0 h1
    rw [setX_x]; unfold wrap
    rw [if_neg (by linarith), if_pos h1]
    exact fun hc => absurd hc.symm (ne_of_gt h0)
  · intro h1
    rw [setY_y]; unfold wrap
    rw [if_neg (by linarith), if_pos h1]
  · intro h1
    rw [setY_y]; unfold wrap
    rw [if_pos h1]
  · intro h1 h2
    rw [setY_y]; unfold wrap
    rw [if_neg (not_lt.mpr h1), if_neg (not_lt.mpr h2)]

/-- Witness for C5 at canvas 800×600 (extent 8): setX 9 wraps to 0,
setX (-1) wraps to the extent, setY 9 wraps to 0. -/
theorem C5_wraparound_witness :
    (playerInit.setX 800 9).x = 0 ∧
    (playerInit.setX 800 (-1)).x = maxX 800 ∧
    (playerInit.setY 600 9).y = 0 := by
  have hmx : maxX 800 = RESOLUTION := maxX_eq 800 (by norm_num)
  have hmy : maxY 600 = RESOLUTION := maxY_eq 600 (by norm_num)
  refine ⟨(C5_wraparound 800 600 playerInit 9 9).1 (by rw [hmx]; norm_num [RESOLUTION]),
    (C5_wraparound 800 600 playerInit (-1) 9).2.1 (by norm_num),
    (C5_wraparound 800 600 playerInit 9 9).2.2.2.2.1 (by rw [hmy]; norm_num [RESOLUTION])⟩

/-- C6: the combined intent vector is the component-wise sum of the fixed
unit vectors of the active directional signals, with no normalization; the
table is Up ↦ (0,-1), Down ↦ (0,1), Left ↦ (-1,0), Right ↦ (1,0); holding
ArrowLeft and ArrowRight together yields the zero intent vector, and the
resulting tick is identical to a tick with no signals at all, so
direction.dx decays exactly as if no signal were active. -/
theorem C6_intent_aggregation :
    (∀ sigs : List (String × Bool),
      intentOf sigs =
        ⟨(((activeDirs sigs).map Prod.fst).map cdx).sum,
         (((activeDirs sigs).map Prod.fst).map cdy).sum⟩) ∧
    DIRS "ArrowUp" = some (0, -1) ∧ DIRS "ArrowDown" = some (0, 1) ∧
    DIRS "ArrowLeft" = some (-1, 0) ∧ DIRS "ArrowRight" = some (1, 0) ∧
    intentOf [("ArrowLeft", true), ("ArrowRight", true)] = ⟨0, 0⟩ ∧
    (∀ (w h : ℚ) (p : Player),
      tick w h [("ArrowLeft", true), ("ArrowRight", true)] p = tick w h [] p) := by
  have hLR : intentOf [("ArrowLeft", true), ("ArrowRight", true)]
      = intentOf [] := by
    simp [intentOf, activeDirs, calculateDirection, DIRS]
  refine ⟨?_, rfl, rfl, rfl, rfl, ?_, ?_⟩
  · intro sigs
    have hx := intent_dx_sum sigs
    have hy := intent_dy_sum sigs
    cases hv : intentOf sigs with
    | mk a b =>
      rw [hv] at hx hy
      simp only at hx hy
      rw [← hx, ← hy]
  · rw [hLR]; rfl
  · intro w h p
    rw [tick_eq_setDirection, tick_eq_setDirection, hLR]

/-- C7: axis-asymmetric position update: on every tick the x position is
updated by (velocity.dx + frictionCoefficient * mass) * direction.dx (the
velocity after the move clamp), i.e. with the extra frictionCoefficient*mass
term, while the y position is updated by velocity.dy * direction.dy with no
such term; both results pass through the wraparound. -/
theorem C7_axis_asymmetry (w h : ℚ) (sigs : List (String × Bool)) (p : Player) :
    (tick w h sigs p).x =
      wrap (maxX w) (p.x + (clamp0 p.velocity.dx + friction * mass) * p.direction.dx) ∧
    (tick w h sigs p).y =
      wrap (maxY h) (p.y + clamp0 p.velocity.dy * p.direction.dy) :=
  ⟨tick_x w h sigs p, tick_y w h sigs p⟩

/-- C8 counterexample: constructing the World with size = -1 does not raise
any error — the code has no size check at all — and silently yields a
degenerate grid with no rows (the loop body never runs) while storing the
given size; the spec-modelled constructor instead fails with
InvalidGridSize there, exhibiting the divergence. -/
theorem C8_counterexample :
    (World.new (-1)).world = [] ∧
    (World.new (-1)).size = -1 ∧
    World.newSpec (-1) = Except.error GridError.InvalidGridSize := by
  refine ⟨?_, rfl, ?_⟩
  · unfold World.new iterCount
    rw [if_pos (by norm_num : (-1 : ℚ) ≤ 0)]
    rfl
  · unfold World.newSpec
    rw [if_pos (by norm_num : (-1 : ℚ) ≤ 0)]

/-- C8 (amended): World construction never fails.  For every size ≤ 0 it
silently returns a degenerate grid: the stored size is the given value and
the cell matrix is empty.  For every natural size n, it succeeds with an
n × n matrix of cells all defaulted to 0. -/
theorem C8_construction :
    (∀ s : ℚ, s ≤ 0 → (World.new s).world = [] ∧ (World.new s).size = s) ∧
    (∀ n : ℕ, (World.new (n : ℚ)).world = List.replicate n (List.replicate n 0) ∧
      (World.new (n : ℚ)).size = (n : ℚ)) := by
  constructor
  · intro s hs
    refine ⟨?_, rfl⟩
    unfold World.new iterCount
    rw [if_pos hs]
    rfl
  · intro n
    refine ⟨?_, rfl⟩
    have hiter : iterCount (n : ℚ) = n := by
      unfold iterCount
      by_cases hn : (n : ℚ) ≤ 0
      · have hn0 : n = 0 := by exact_mod_cast le_antisymm hn (by positivity)
        subst hn0
        simp
      · rw [if_neg hn, Int.ceil_natCast, Int.toNat_natCast]
    unfold World.new
    rw [hiter]

/-- Witness for C8 (amended): size -2 gives the degenerate empty grid, and
size 3 gives the 3 × 3 zero matrix. -/
theorem C8_construction_witness :
    (World.new (-2)).world = [] ∧
    (World.new ((3 : ℕ) : ℚ)).world = List.replicate 3 (List.replicate 3 0) :=
  ⟨(C8_construction.1 (-2) (by norm_num)).1, (C8_construction.2 3).1⟩

/-- C9: the wrap boundary used for the player position is
maxX = canvas.width / (canvas.width / RESOLUTION), which cancels to the
fixed constant RESOLUTION = 8 for every non-zero width, independently of
the World created by Engine.start, whose size is canvas.width / 10; so for
every canvas width other than 80 the player's motion extent and the world
grid's size are two different quantities. -/
theorem C9_extent_mismatch (w h now : ℚ) (e : Engine) (hw : w ≠ 0) :
    maxX w = RESOLUTION ∧
    (Engine.start w h now e).world = some (World.new (w / 10)) ∧
    (World.new (w / 10)).size = w / 10 ∧
    (w ≠ 80 → maxX w ≠ (World.new (w / 10)).size) := by
  refine ⟨maxX_eq w hw, ?_, rfl, ?_⟩
  · unfold Engine.start
    rw [engineMain_world]
  · intro h80 hcon
    rw [maxX_eq w hw] at hcon
    have hsz : (World.new (w / 10)).size = w / 10 := rfl
    rw [hsz] at hcon
    apply h80
    have : (8 : ℚ) = w / 10 := by rw [← hcon]; norm_num [RESOLUTION]
    field_simp at this
    linarith

/-- Witness for C9 at canvas width 800: the wrap boundary is 8 while the
world created by start has size 80. -/
theorem C9_extent_mismatch_witness :
    maxX 800 = RESOLUTION ∧
    (Engine.start 800 600 0 engineInit).world = some (World.new (800 / 10)) ∧
    maxX 800 ≠ (World.new (800 / 10)).size := by
  have h := C9_extent_mismatch 800 600 0 engineInit (by norm_num)
  exact ⟨h.1, h.2.1, h.2.2.2 (by norm_num)⟩

/-- C10: a signal update delivered to Engine.input while running is false
leaves the engine state (including the signal set) entirely unchanged: the
update is discarded, not queued, so it can never take effect — in
particular a later start from the same state is identical to a start that
never saw the update. -/
theorem C10_input_discarded (e : Engine) (sig : List (String × Bool)) (w h now : ℚ)
    (hr : e.running = false) :
    e.input sig = e ∧
    Engine.start w h now (e.input sig) = Engine.start w h now e := by
  have h1 : e.input sig = e := by
    unfold Engine.input
    rw [hr]
    rfl
  exact ⟨h1, by rw [h1]⟩

/-- Witness for C10: the initial engine is stopped, and an ArrowRight press
delivered to it is discarded without any state change. -/
theorem C10_input_discarded_witness :
    engineInit.input [("ArrowRight", true)] = engineInit ∧
    Engine.start 800 600 0 (engineInit.input [("ArrowRight", true)])
      = Engine.start 800 600 0 engineInit :=
  C10_input_discarded engineInit [("ArrowRight", true)] 800 600 0 rfl
